import Mathlib

/-!
Verification of the incremental caching and work-determination subsystem of the
climatesense-kg pipeline, as a shallow embedding in Lean 4.

The embedding follows the Python sources:
  * `src/climatesense_kg/cache/interface.py`       (CacheInterface)
  * `src/climatesense_kg/cache/postgres_cache.py`  (PostgresCache)
  * `src/climatesense_kg/cache/redis_cache.py`     (RedisCache)
  * `src/climatesense_kg/config/models.py`         (canonical data model, URI generation)
  * `src/climatesense_kg/utils/data_cache.py`      (DataCache, raw-source cache)
  * `src/climatesense_kg/enrichers/base.py`        (Enricher batch protocol)
  * `src/climatesense_kg/enrichers/dbpedia_enricher.py`
  * `src/climatesense_kg/enrichers/url_text_enricher.py`
  * `src/climatesense_kg/pipeline.py`              (completeness resolver)

Python dicts with string keys are modelled as association lists, JSON values by
an inductive `Json` type, machine reals entering time arithmetic by `Rat`, and
raised-and-caught Python exceptions by `Except` values.
-/

/-- Model of a Python/JSON value (dicts are association lists in insertion order). -/
inductive Json where
  | null : Json
  | bool (b : Bool) : Json
  | num (n : Int) : Json
  | str (s : String) : Json
  | arr (elems : List Json) : Json
  | obj (fields : List (String × Json)) : Json

/-- Model of a Python `dict[str, Any]` payload as passed to the step cache. -/
abbrev Payload := List (String × Json)

/-- Model of a Python exception kind that the embedded code can raise. -/
inductive PyError where
  | typeError : PyError
  | attributeError : PyError
  | keyError : PyError
  | raised : PyError
deriving DecidableEq

/-! ### UTF-8 and SHA-2

Models of Python's `str.encode()` (UTF-8) and `hashlib.sha224` / `hashlib.sha256`
(FIPS 180-4), used by the identifier generator and the cache-key derivation.
Words are `Nat` values kept below `2 ^ 32` explicitly.
-/

/-- UTF-8 encoding of a single character, as a list of byte values. -/
def utf8Char (c : Char) : List Nat :=
  let n := c.toNat
  if n < 128 then [n]
  else if n < 2048 then [192 ||| (n >>> 6), 128 ||| (n &&& 63)]
  else if n < 65536 then
    [224 ||| (n >>> 12), 128 ||| ((n >>> 6) &&& 63), 128 ||| (n &&& 63)]
  else
    [240 ||| (n >>> 18), 128 ||| ((n >>> 12) &&& 63),
     128 ||| ((n >>> 6) &&& 63), 128 ||| (n &&& 63)]

/-- UTF-8 encoding of a string (Python `s.encode()`). -/
def utf8Bytes (s : String) : List Nat :=
  s.data.flatMap utf8Char

/-- Truncation to a 32-bit word. -/
def w32 (n : Nat) : Nat := n % 4294967296

/-- Right rotation of a 32-bit word. -/
def rotr32 (n x : Nat) : Nat := w32 ((x >>> n) ||| (x <<< (32 - n)))

/-- Bitwise complement of a 32-bit word. -/
def not32 (x : Nat) : Nat := 4294967295 - w32 x

/-- SHA-2 choice function. -/
def sha2Ch (x y z : Nat) : Nat := (x &&& y) ^^^ (not32 x &&& z)

/-- SHA-2 majority function. -/
def sha2Maj (x y z : Nat) : Nat := (x &&& y) ^^^ (x &&& z) ^^^ (y &&& z)

/-- SHA-2 big sigma-0. -/
def bigSigma0 (x : Nat) : Nat := rotr32 2 x ^^^ rotr32 13 x ^^^ rotr32 22 x

/-- SHA-2 big sigma-1. -/
def bigSigma1 (x : Nat) : Nat := rotr32 6 x ^^^ rotr32 11 x ^^^ rotr32 25 x

/-- SHA-2 small sigma-0. -/
def smallSigma0 (x : Nat) : Nat := rotr32 7 x ^^^ rotr32 18 x ^^^ (x >>> 3)

/-- SHA-2 small sigma-1. -/
def smallSigma1 (x : Nat) : Nat := rotr32 17 x ^^^ rotr32 19 x ^^^ (x >>> 10)

/-- SHA-224/256 round constants. -/
def sha2K : List Nat :=
  [1116352408, 1899447441, 3049323471, 3921009573, 961987163, 1508970993,
   2453635748, 2870763221, 3624381080, 310598401, 607225278, 1426881987,
   1925078388, 2162078206, 2614888103, 3248222580, 3835390401, 4022224774,
   264347078, 604807628, 770255983, 1249150122, 1555081692, 1996064986,
   2554220882, 2821834349, 2952996808, 3210313671, 3336571891, 3584528711,
   113926993, 338241895, 666307205, 773529912, 1294757372, 1396182291,
   1695183700, 1986661051, 2177026350, 2456956037, 2730485921, 2820302411,
   3259730800, 3345764771, 3516065817, 3600352804, 4094571909, 275423344,
   430227734, 506948616, 659060556, 883997877, 958139571, 1322822218,
   1537002063, 1747873779, 1955562222, 2024104815, 2227730452, 2361852424,
   2428436474, 2756734187, 3204031479, 3329325298]

/-- Initial hash values for SHA-256. -/
def sha256IV : List Nat :=
  [1779033703, 3144134277, 1013904242, 2773480762,
   1359893119, 2600822924, 528734635, 1541459225]

/-- Initial hash values for SHA-224. -/
def sha224IV : List Nat :=
  [3238371032, 914150663, 812702999, 4144912697,
   4290775857, 1750603025, 1694076839, 3204075428]

/-- Big-endian byte representation of a value in `n` bytes. -/
def beBytes : Nat → Nat → List Nat
  | 0, _ => []
  | n + 1, v => beBytes n (v >>> 8) ++ [v % 256]

/-- SHA-2 message padding: append `0x80`, zero bytes, and the 64-bit bit length. -/
def sha2Pad (msg : List Nat) : List Nat :=
  let l := msg.length
  let k := (119 - l % 64) % 64
  msg ++ [128] ++ List.replicate k 0 ++ beBytes 8 (8 * l)

/-- Grouping of a byte list into big-endian 32-bit words. -/
def bytesToWords : List Nat → List Nat
  | b0 :: b1 :: b2 :: b3 :: rest =>
      (((b0 * 256 + b1) * 256 + b2) * 256 + b3) :: bytesToWords rest
  | _ => []

/-- Grouping of a word list into 16-word blocks. -/
def toBlocks : List Nat → List (List Nat)
  | [] => []
  | w :: ws => ((w :: ws).take 16) :: toBlocks ((w :: ws).drop 16)
termination_by l => l.length
decreasing_by simp [List.length_drop]; omega

/-- Extension of the 16-word message schedule by `n` further words. -/
def extendSchedule : Nat → List Nat → List Nat
  | 0, w => w
  | n + 1, w =>
      let i := w.length
      extendSchedule n (w ++ [w32 (smallSigma1 (w.getD (i - 2) 0) + w.getD (i - 7) 0 +
        smallSigma0 (w.getD (i - 15) 0) + w.getD (i - 16) 0)])

/-- One SHA-2 compression round over the working state `[a,b,c,d,e,f,g,h]`. -/
def roundStep (st : List Nat) (kw : Nat × Nat) : List Nat :=
  match st with
  | [a, b, c, d, e, f, g, h] =>
      let t1 := w32 (h + bigSigma1 e + sha2Ch e f g + kw.1 + kw.2)
      let t2 := w32 (bigSigma0 a + sha2Maj a b c)
      [w32 (t1 + t2), a, b, c, w32 (d + t1), e, f, g]
  | other => other

/-- SHA-2 compression of one 16-word block into the hash value. -/
def compressBlock (hv : List Nat) (block : List Nat) : List Nat :=
  let w := extendSchedule 48 block
  let st := (sha2K.zip w).foldl roundStep hv
  (hv.zip st).map (fun p => w32 (p.1 + p.2))

/-- SHA-2 core: pad, split into blocks, fold the compression function. -/
def sha2Core (iv : List Nat) (msg : List Nat) : List Nat :=
  (toBlocks (bytesToWords (sha2Pad msg))).foldl compressBlock iv

/-- Lowercase hexadecimal digit for a value below 16. -/
def hexDigit (n : Nat) : Char :=
  if n < 10 then Char.ofNat (48 + n) else Char.ofNat (87 + n)

/-- Lowercase hexadecimal rendering of a 32-bit word (8 digits). -/
def toHex32 (x : Nat) : String :=
  String.mk ((List.range 8).map (fun i => hexDigit ((x >>> (28 - 4 * i)) &&& 15)))

/-- Lowercase-hex SHA-256 digest of a byte list (Python `hashlib.sha256(...).hexdigest()`). -/
def sha256hex (msg : List Nat) : String :=
  String.join ((sha2Core sha256IV msg).map toHex32)

/-- Lowercase-hex SHA-224 digest of a byte list (Python `hashlib.sha224(...).hexdigest()`). -/
def sha224hex (msg : List Nat) : String :=
  String.join (((sha2Core sha224IV msg).take 7).map toHex32)

/-! ### Step cache: interface, Redis backend, Postgres backend

From `cache/interface.py`, `cache/redis_cache.py`, `cache/postgres_cache.py`.
The Redis value store and the Postgres `cache_entries` table are modelled as
functions from the cache key to an optional stored value/row; JSON
serialization (`json.dumps`/`json.loads`, psycopg JSONB) is modelled as the
identity on the `Payload` model.
-/

/-- Python truthiness of a JSON value (`bool(x)`). -/
def Json.pyTruthy : Json → Bool
  | .null => false
  | .bool b => b
  | .num n => n != 0
  | .str s => s != ""
  | .arr l => !l.isEmpty
  | .obj l => !l.isEmpty

/-- Namespaced cache key, from `CacheInterface.generate_cache_key(self, uri, step, env)`:
`{env}:climatesense:{step}:{uri_sha256}`. -/
def CacheInterface.generate_cache_key (uri step env : String) : String :=
  env ++ ":climatesense:" ++ step ++ ":" ++ sha256hex (utf8Bytes uri)

/-- Wrapper built by `CacheInterface.create_cache_value`: a dict with the fixed keys
`step`, `payload`, `created_at`, `updated_at`.  The two timestamps are
`datetime.now(UTC).isoformat()` strings, supplied here as `now`. -/
structure RedisCacheValue where
  step : String
  payload : Payload
  created_at : String
  updated_at : String

/-- Model of `CacheInterface.create_cache_value(step, payload)`. -/
def CacheInterface.create_cache_value (step : String) (payload : Payload) (now : String) :
    RedisCacheValue :=
  ⟨step, payload, now, now⟩

/-- Model of `CacheInterface.extract_payload`: `None` stays `None` (the wrapper dict is
non-empty, hence truthy, so the `if not cache_value` guard only fires on `None`),
otherwise `cache_value.get("payload")`, which is always present on values built by
`create_cache_value`. -/
def CacheInterface.extract_payload : Option RedisCacheValue → Option Payload
  | none => none
  | some v => some v.payload

/-- Redis key space: cache key to stored (JSON-serialized) wrapper. -/
abbrev RedisStore := String → Option RedisCacheValue

/-- Model of `RedisCache.set`: derive the key with the instance `env`, wrap the payload,
store it.  Returns `true` (the `except` branch only fires on backend failures, which
are outside this state model). -/
def RedisCache.set (st : RedisStore) (env uri step : String) (payload : Payload)
    (now : String) : RedisStore × Bool :=
  let key := CacheInterface.generate_cache_key uri step env
  let value := CacheInterface.create_cache_value step payload now
  (fun k => if k = key then some value else st k, true)

/-- Model of `RedisCache.get`: look the key up, parse, extract the payload; a missing
key or missing payload yields `None`. -/
def RedisCache.get (st : RedisStore) (env uri step : String) : Option Payload :=
  let key := CacheInterface.generate_cache_key uri step env
  match CacheInterface.extract_payload (st key) with
  | some payload => some payload
  | none => none

/-- RedisCache defines no `get_many` method (`redis_cache.py` declares only
`get`, `set`, `delete`, `ping`, `close` besides the inherited helpers, and
`CacheInterface` does not declare `get_many` either), so the attribute access
`cache.get_many` on a `RedisCache` instance raises `AttributeError`.  This models
that dynamic attribute lookup. -/
def RedisCache.getManyCall :
    Except PyError (List String → String → List (String × Payload)) :=
  Except.error PyError.attributeError

/-- One row of the `cache_entries` table (postgres_cache.py `_ensure_table_exists`);
`payload` is a `NOT NULL` JSONB column. -/
structure PgRow where
  step : String
  uri : String
  success : Bool
  payload : Payload

/-- The `cache_entries` table, keyed by the `cache_key` primary key. -/
abbrev PgDb := String → Option PgRow

/-- PostgresCache methods invoke `self.generate_cache_key(uri, step)` with two
arguments (postgres_cache.py lines 98, 133, 161, 188-189, 229), but the inherited
`CacheInterface.generate_cache_key(self, uri, step, env)` requires a third
positional argument `env` with no default (interface.py line 60).  The call
therefore raises `TypeError`, which each caller's `except Exception` handler
swallows.  This definition models that call site. -/
def PostgresCache.generateCacheKeyCall (_uri _step : String) : Except PyError String :=
  Except.error PyError.typeError

/-- Model of `PostgresCache.get`: the body raises `TypeError` while computing the
cache key, the handler logs and returns `None`.  The `Except.ok` branch transcribes
the unreachable remainder of the method (SELECT by key, `None` on no row). -/
def PostgresCache.get (db : PgDb) (uri step : String) : Option Payload :=
  match PostgresCache.generateCacheKeyCall uri step with
  | Except.error _ => none
  | Except.ok key =>
      match db key with
      | none => none
      | some row => some row.payload

/-- Model of `PostgresCache.set`: the body raises `TypeError` while computing the
cache key, the handler logs and returns `False`; the table is not touched.  The
`Except.ok` branch transcribes the unreachable upsert
(`INSERT ... ON CONFLICT (cache_key) DO UPDATE SET success, payload`). -/
def PostgresCache.set (db : PgDb) (uri step : String) (payload : Payload) : PgDb × Bool :=
  match PostgresCache.generateCacheKeyCall uri step with
  | Except.error _ => (db, false)
  | Except.ok key =>
      let success := (match payload.lookup "success" with
        | some v => v.pyTruthy
        | none => true)
      let newDb : PgDb := fun k =>
        if k = key then
          match db key with
          | none => some ⟨step, uri, success, payload⟩
          | some old => some ⟨old.step, old.uri, success, payload⟩
        else db k
      (newDb, true)

/-- Model of `PostgresCache.get_many`: empty input returns the empty dict; otherwise
the key-list comprehension raises `TypeError` on its first element and the handler
returns the empty dict.  The `Except.ok` branch transcribes the unreachable
remainder (SELECT by key list, map hits back to URIs, keep non-null payloads). -/
def PostgresCache.get_many (db : PgDb) (uris : List String) (step : String) :
    List (String × Payload) :=
  if uris.isEmpty then []
  else
    match uris.mapM (fun u => PostgresCache.generateCacheKeyCall u step) with
    | Except.error _ => []
    | Except.ok keys =>
        (uris.zip keys).filterMap (fun p => (db p.2).map (fun row => (p.1, row.payload)))

/-! ### Raw-source cache (DataCache)

From `utils/data_cache.py`.  The on-disk state of one cache key is the pair of
the compressed payload file (`{key}.gz`) and the metadata sidecar
(`{key}.meta.json`); either file can be absent or corrupt.  Wall-clock seconds
(`time.time()`) and TTL hours are modelled as rationals.
-/

/-- Content of the compressed payload file: a well-formed gzip stream holding the
stored bytes, or a corrupt/partial file whose read fails. -/
inductive GzFile where
  | valid (data : List Nat) : GzFile
  | corrupt : GzFile

/-- Content of the `*.meta.json` sidecar: parsed metadata, or a file whose JSON
parse fails. -/
inductive MetaFile where
  | valid (timestamp : Rat) (source_name config_hash : String) (size_bytes : Nat) : MetaFile
  | corrupt : MetaFile

/-- On-disk state of one raw-cache slot (one cache key). -/
structure CacheSlot where
  gz : Option GzFile
  meta : Option MetaFile

/-- Model of `DataCache._generate_cache_key`: `{source_name}_{sha256(config_str)}`,
where `config_str` stands for `json.dumps(config, sort_keys=True, ensure_ascii=True)`,
the canonical serialization of the provider-config subset. -/
def DataCache.generate_cache_key (source_name configStr : String) : String :=
  source_name ++ "_" ++ sha256hex (utf8Bytes configStr)

/-- Model of `DataCache._is_expired`: a missing or unreadable sidecar counts as
expired; otherwise the entry is expired when `now - timestamp > ttl_hours * 3600`. -/
def DataCache.is_expired (slot : CacheSlot) (now ttl_hours : Rat) : Bool :=
  match slot.meta with
  | none => true
  | some MetaFile.corrupt => true
  | some (MetaFile.valid ts _ _ _) => decide (now - ts > ttl_hours * 3600)

/-- Model of `ttl_hours = ttl_hours or self.default_ttl_hours`: Python replaces both
`None` and a falsy `0.0` with the configured default. -/
def DataCache.effectiveTtl (ttl_hours : Option Rat) (default_ttl_hours : Rat) : Rat :=
  match ttl_hours with
  | none => default_ttl_hours
  | some t => if t = 0 then default_ttl_hours else t

/-- Model of `DataCache.get`: resolve the TTL, return `None` if (not ignoring expiry)
the entry is expired or the sidecar is missing; then `None` if the payload file is
absent or unreadable, else the stored bytes. -/
def DataCache.get (slot : CacheSlot) (now : Rat) (ttl_hours : Option Rat)
    (ignore_expiry : Bool) (default_ttl_hours : Rat) : Option (List Nat) :=
  let ttl := DataCache.effectiveTtl ttl_hours default_ttl_hours
  if !ignore_expiry && DataCache.is_expired slot now ttl then none
  else
    match slot.gz with
    | none => none
    | some GzFile.corrupt => none
    | some (GzFile.valid data) => some data

/-- Injected failure point for `DataCache.put`: the gzip payload write or the
metadata sidecar write can raise (disk full, permissions, ...). -/
inductive PutFailure where
  | gzWrite : PutFailure
  | metaWrite : PutFailure
deriving DecidableEq

/-- Cleanup loop of `DataCache.put`'s `except` handler: both the payload path and
the metadata path are unlinked if they exist. -/
def DataCache.cleanupPartial (_slot : CacheSlot) : CacheSlot :=
  { gz := none, meta := none }

/-- Model of `DataCache.put`: on success both files hold the new content and the
sidecar records `time.time()` and the byte count.  On a failure at either write the
handler removes both files (whatever intermediate state the slot was in) and
re-raises the error. -/
def DataCache.put (slot : CacheSlot) (now : Rat) (source_name config_hash : String)
    (data : List Nat) : Option PutFailure → CacheSlot × Option PutFailure
  | none =>
      ({ gz := some (GzFile.valid data),
         meta := some (MetaFile.valid now source_name config_hash data.length) }, none)
  | some PutFailure.gzWrite =>
      let midState : CacheSlot := { slot with gz := some GzFile.corrupt }
      (DataCache.cleanupPartial midState, some PutFailure.gzWrite)
  | some PutFailure.metaWrite =>
      let midState : CacheSlot :=
        { gz := some (GzFile.valid data), meta := some MetaFile.corrupt }
      (DataCache.cleanupPartial midState, some PutFailure.metaWrite)

/-! ### URL parsing and canonical identifiers

From `config/models.py`.  `urllib.parse.urlparse` is modelled for the components
`CanonicalClaimReview.uri` consumes (netloc and path); `normalize_text`
(`utils/text_processing.py`: HTML-entity unescaping, URL removal, whitespace
collapsing) is kept abstract, so all theorems below hold for every
normalization function.
-/

/-- Model of Python `path.endswith("/")` (`String.endsWith` is byte-position based
and is modelled at the character level). -/
def pyEndsWithSlash (s : String) : Bool :=
  s.data.getLast? == some '/'

/-- Model of Python `str.lower()` on the ASCII range (the URLs the identifier
generator lowercases are ASCII; Python's full Unicode case mapping is not
modelled). -/
def pyLower (s : String) : String :=
  String.mk (s.data.map Char.toLower)

/-- Characters allowed after the first letter of a URL scheme. -/
def isSchemeChar (c : Char) : Bool := c.isAlphanum || c = '+' || c = '-' || c = '.'

/-- Index of the last occurrence of a character, if any. -/
def rfindIdx (c : Char) (l : List Char) : Option Nat :=
  (l.reverse.findIdx? (· = c)).map (fun j => l.length - 1 - j)

/-- Params split of `urlparse` (`_splitparams`): when the path contains a `;`, drop
everything from the first `;` of the last segment.  Modelled for the schemes review
URLs use (http/https/none, all in CPython's `uses_params`). -/
def splitParams (path : List Char) : List Char :=
  if path.elem ';' then
    if path.elem '/' then
      let r := (rfindIdx '/' path).getD 0
      match (path.drop r).findIdx? (· = ';') with
      | none => path
      | some j => path.take (r + j)
    else path.takeWhile (· != ';')
  else path

/-- Netloc and path of a URL, modelled from Python `urllib.parse.urlparse`: strip the
fragment at the first `#`, strip a well-formed `scheme:` prefix, read the authority
after `//` up to the next `/` or `?`, drop the query at the first `?`, split params.
The whitespace/control-byte stripping CPython applies to malformed URLs is not
modelled. -/
def urlparseNetlocPath (url : String) : String × String :=
  let cs := url.data
  let noFrag := cs.takeWhile (· != '#')
  let afterScheme :=
    match noFrag.findIdx? (· = ':') with
    | some i =>
        if 0 < i ∧ (noFrag.headD ' ').isAlpha ∧ (noFrag.take i).all isSchemeChar then
          noFrag.drop (i + 1)
        else noFrag
    | none => noFrag
  let netloc :=
    match afterScheme with
    | '/' :: '/' :: tail => tail.takeWhile (fun c => c != '/' && c != '?')
    | _ => []
  let rest :=
    match afterScheme with
    | '/' :: '/' :: tail => tail.dropWhile (fun c => c != '/' && c != '?')
    | other => other
  let pathChars := rest.takeWhile (· != '?')
  (String.mk netloc, String.mk (splitParams pathChars))

/-- Model of `CanonicalRating` (only the fields the URI generator reads). -/
structure CanonicalRating where
  label : String
  original_label : Option String := none

/-- Model of `CanonicalClaim` (identity field `text`, plus a non-identity field). -/
structure CanonicalClaim where
  text : String
  headline : Option String := none

/-- Model of `CanonicalClaimReview` (identity fields plus representative
non-identity fields `review_text` and `source_name`). -/
structure CanonicalClaimReview where
  claim : CanonicalClaim
  review_url : String
  date_published : Option String := none
  language : Option String := none
  rating : Option CanonicalRating := none
  review_text : Option String := none
  source_name : Option String := none

/-- Model of `CanonicalClaim.uri`: `"claim" + normalized_text`, SHA-224, prefix
`claim/`. -/
def CanonicalClaim.uri (normalize : String → String) (c : CanonicalClaim) : String :=
  "claim/" ++ sha224hex (utf8Bytes ("claim" ++ normalize c.text))

/-- Model of `CanonicalClaimReview.uri`: parse the lowercased review URL, append a
trailing slash to a non-empty path without one, concatenate
`"claim-review"`, the normalized claim text, the rating label (or `""`), the
netloc+path, the publish date (or `""`) and the language (or `""`), hash with
SHA-224, prefix `claim-review/`. -/
def CanonicalClaimReview.uri (normalize : String → String)
    (r : CanonicalClaimReview) : String :=
  let parsed := urlparseNetlocPath (pyLower r.review_url)
  let path0 := parsed.2
  let path1 := if path0 != "" && !(pyEndsWithSlash path0) then path0 ++ "/" else path0
  let identifier :=
    "claim-review" ++ normalize r.claim.text
      ++ (match r.rating with | some rt => rt.label | none => "")
      ++ (parsed.1 ++ path1)
      ++ r.date_published.getD "" ++ r.language.getD ""
  "claim-review/" ++ sha224hex (utf8Bytes identifier)

/-- Normalized review-URL authority+path, as the specification words it: the
lowercased URL's authority concatenated with its path, a non-empty path carrying a
trailing slash. -/
def reviewUrlAuthorityPath (r : CanonicalClaimReview) : String :=
  let parsed := urlparseNetlocPath (pyLower r.review_url)
  let path0 := parsed.2
  parsed.1 ++ (if path0 != "" && !(pyEndsWithSlash path0) then path0 ++ "/" else path0)

/-- Identity fields of a claim review in the specification's fixed order: normalized
claim text, rating label, normalized review-URL authority+path, publish date,
language, each missing optional field as the empty string. -/
def claimReviewIdentityFields (normalize : String → String)
    (r : CanonicalClaimReview) : List String :=
  [normalize r.claim.text,
   (match r.rating with | some rt => rt.label | none => ""),
   reviewUrlAuthorityPath r,
   r.date_published.getD "",
   r.language.getD ""]

/-- Specification-side formula for the claim-review identifier: `{kind}/` followed by
the lowercase-hex SHA-224 digest of the UTF-8 bytes of the kind concatenated with
the identity fields in their fixed order (normalized claim text, rating label,
normalized review-URL authority+path, publish date, language; missing optional
fields as the empty string). -/
def claimReviewUriSpec (normalize : String → String)
    (r : CanonicalClaimReview) : String :=
  "claim-review/" ++
    sha224hex (utf8Bytes ("claim-review" ++ normalize r.claim.text
      ++ (match r.rating with | some rt => rt.label | none => "")
      ++ reviewUrlAuthorityPath r
      ++ r.date_published.getD "" ++ r.language.getD ""))

/-- Specification-side formula for the claim identifier: kind `claim` with its single
identity field, the normalized claim text. -/
def claimUriSpec (normalize : String → String) (c : CanonicalClaim) : String :=
  "claim/" ++ sha224hex (utf8Bytes ("claim" ++ normalize c.text))

/-! ### Enricher batch protocol and completeness resolver

From `enrichers/base.py`, `enrichers/dbpedia_enricher.py`,
`enrichers/url_text_enricher.py` and `pipeline.py`.  The step-cache backend state
is a map from (uri, step) to an optional stored payload, and `get_many` is taken
at its interface contract: exactly the queried URIs holding an entry for the
step, each with its stored payload.
-/

/-- Abstract step-cache backend state: the entry stored for a (uri, step) pair. -/
abbrev StepCacheState := String → String → Option Payload

/-- Contract of `get_many(uris, step)`: the dict of exactly those queried URIs that
hold an entry for the step, each mapped to its stored payload. -/
def getManySpec (st : StepCacheState) (uris : List String) (step : String) :
    List (String × Payload) :=
  uris.filterMap (fun u => (st u step).map (fun p => (u, p)))

/-- Value of a `try` body under Python `try/except`: the computed value, or the
fallback the handler supplies. -/
def pyTry {α : Type} (r : Except PyError α) (fallback : α) : α :=
  match r with
  | Except.ok v => v
  | Except.error _ => fallback

/-- One iteration of the loop in `Enricher.enrich`: an item with a truthy URI present
in the get_many result goes through `apply_cached_data`, any other item through
`_process_item`; an exception from either leaves the original item in the results. -/
def Enricher.enrichStep {Item : Type} (uriOf : Item → String)
    (applyCachedData : Item → Payload → Except PyError Item)
    (processItem : Item → Except PyError Item)
    (cached : List (String × Payload)) (it : Item) : Item :=
  pyTry
    (match (if uriOf it != "" then cached.lookup (uriOf it) else none) with
     | some p => applyCachedData it p
     | none => processItem it)
    it

/-- The `cached_data` dict of `Enricher.enrich`: empty when the batch has no truthy
URIs (`if self.cache and uris`), otherwise one `get_many` over the batch URIs. -/
def Enricher.enrichCached {Item : Type} (uriOf : Item → String)
    (st : StepCacheState) (step : String) (items : List Item) :
    List (String × Payload) :=
  if ((items.filter (fun it => uriOf it != "")).map uriOf).isEmpty then []
  else getManySpec st ((items.filter (fun it => uriOf it != "")).map uriOf) step

/-- Model of `Enricher.enrich` (enrichers/base.py lines 28-64): collect the truthy
URIs, one `get_many` for the whole batch, then build the result list item by item. -/
def Enricher.enrich {Item : Type} (uriOf : Item → String)
    (applyCachedData : Item → Payload → Except PyError Item)
    (processItem : Item → Except PyError Item)
    (st : StepCacheState) (step : String) (items : List Item) : List Item :=
  items.map (Enricher.enrichStep uriOf applyCachedData processItem
    (Enricher.enrichCached uriOf st step items))

/-- Payload built by `Enricher.cache_error` (enrichers/base.py lines 119-146):
`{"success": False, "error": {"type": ..., "message": ...}, "data": data or {}}`;
`data or {}` maps both `None` and the falsy empty dict to `{}`. -/
def Enricher.cacheErrorPayload (error_type message : String)
    (data : Option Payload) : Payload :=
  [("success", Json.bool false),
   ("error", Json.obj [("type", Json.str error_type), ("message", Json.str message)]),
   ("data", Json.obj (data.getD []))]

/-- Payload built by `Enricher.cache_success` (enrichers/base.py lines 148-160):
`{"success": True, "data": data}`. -/
def Enricher.cacheSuccessPayload (data : Payload) : Payload :=
  [("success", Json.bool true), ("data", Json.obj data)]

/-- Python subscript `d[k]` on a dict: the stored value, or `KeyError` when the key
is absent. -/
def pyGetItem (d : Payload) (k : String) : Except PyError Json :=
  match d.lookup k with
  | some v => Except.ok v
  | none => Except.error PyError.keyError

/-- First statement of `DBpediaEnricher.apply_cached_data`
(dbpedia_enricher.py line 119): `data = cached_data["data"]`. -/
def DBpediaEnricher.applyCachedDataRead (cached_data : Payload) : Except PyError Json :=
  pyGetItem cached_data "data"

/-- A Python argument that is either a single claim review or a list of them. -/
inductive PyArg (Item : Type) where
  | item (a : Item) : PyArg Item
  | pylist (l : List Item) : PyArg Item

/-- Model of calling `URLTextEnricher.enrich(arg)` (url_text_enricher.py line 33):
the override is declared with a single `claim_review` parameter and immediately
reads `claim_review.review_url`; when `Pipeline._run_enrichment` passes the whole
batch list (pipeline.py line 448), that attribute access on a `list` raises
`AttributeError`.  The single-item body (cache lookup, extraction, caching) is
abstracted as `single`. -/
def URLTextEnricher.enrichCall {Item : Type} (single : Item → Item) :
    PyArg Item → Except PyError Item
  | PyArg.item a => Except.ok (single a)
  | PyArg.pylist _ => Except.error PyError.attributeError

/-- Keys of a `get_many` result (Python `cached.keys()`); Python sets of URIs are
modelled as lists compared up to membership. -/
def dictKeys (l : List (String × Payload)) : List String :=
  l.map Prod.fst

/-- Model of `Pipeline._get_fully_processed_uris` (pipeline.py lines 225-252): one
`get_many` for the `pipeline.processed_items` marker over the candidate URIs, early
empty return, then one `get_many` per available enricher step over the shrinking
candidate set, intersecting the key sets (`fully_processed_uris &= set(keys)`).
`enabledSteps` lists the `step_name` of each available enricher, in configuration
order. -/
def Pipeline.getFullyProcessedUris (st : StepCacheState) (enabledSteps : List String)
    (uris : List String) : List String :=
  if (dictKeys (getManySpec st uris "pipeline.processed_items")).isEmpty then []
  else
    enabledSteps.foldl
      (fun acc step => acc.filter (fun u => (dictKeys (getManySpec st acc step)).elem u))
      (dictKeys (getManySpec st uris "pipeline.processed_items"))

/-- Filter applied to ingested items (pipeline.py lines 403-407): keep an item when
its URI is falsy or not in the fully-processed set; items are represented here by
their URI strings. -/
def Pipeline.filterNewItems (fully : List String) (itemUris : List String) : List String :=
  itemUris.filter (fun u => u == "" || !(fully.elem u))

/-! ### Helper lemmas -/

/-- Unfolding of a `get_many` result over a cons cell. -/
theorem getManySpec_cons (st : StepCacheState) (step v : String) (rest : List String) :
    getManySpec st (v :: rest) step =
      match st v step with
      | some p => (v, p) :: getManySpec st rest step
      | none => getManySpec st rest step := by
  unfold getManySpec
  rw [List.filterMap_cons]
  cases st v step <;> rfl

/-- Lookup misses in a `get_many` result when the key was not queried. -/
theorem lookup_getManySpec_of_not_mem (st : StepCacheState) (step : String) :
    ∀ {l : List String} {u : String}, u ∉ l →
      (getManySpec st l step).lookup u = none := by
  intro l
  induction l with
  | nil => intro u _; rfl
  | cons v rest ih =>
      intro u hu
      simp only [List.mem_cons, not_or] at hu
      rw [getManySpec_cons]
      cases hv : st v step with
      | none => exact ih hu.2
      | some p =>
          rw [List.lookup_cons, beq_false_of_ne hu.1]
          exact ih hu.2

/-- Lookup in a `get_many` result agrees with the backend state on queried keys. -/
theorem lookup_getManySpec (st : StepCacheState) (step : String) :
    ∀ {l : List String} {u : String}, u ∈ l →
      (getManySpec st l step).lookup u = st u step := by
  intro l
  induction l with
  | nil => intro u hu; cases hu
  | cons v rest ih =>
      intro u hu
      rw [getManySpec_cons]
      cases hv : st v step with
      | none =>
          rcases List.mem_cons.mp hu with rfl | hmem
          · by_cases hr : u ∈ rest
            · rw [ih hr, hv]
            · rw [lookup_getManySpec_of_not_mem st step hr, hv]
          · exact ih hmem
      | some p =>
          rcases List.mem_cons.mp hu with rfl | hmem
          · rw [List.lookup_cons_self, hv]
          · by_cases huv : u = v
            · subst huv; rw [List.lookup_cons_self, hv]
            · rw [List.lookup_cons, beq_false_of_ne huv]
              exact ih hmem

/-- Membership in the key set of a `get_many` result. -/
theorem mem_dictKeys_getManySpec {st : StepCacheState} {l : List String}
    {step u : String} :
    u ∈ dictKeys (getManySpec st l step) ↔ u ∈ l ∧ (st u step).isSome := by
  induction l with
  | nil => simp [dictKeys, getManySpec]
  | cons v rest ih =>
      rw [dictKeys, getManySpec_cons]
      cases hv : st v step with
      | none =>
          rw [← dictKeys]
          rw [ih]
          simp only [List.mem_cons]
          constructor
          · rintro ⟨hm, hs⟩; exact ⟨Or.inr hm, hs⟩
          · rintro ⟨rfl | hm, hs⟩
            · rw [hv] at hs; cases hs
            · exact ⟨hm, hs⟩
      | some p =>
          rw [List.map_cons]
          simp only [List.mem_cons]
          rw [← dictKeys, ih]
          constructor
          · rintro (rfl | ⟨hm, hs⟩)
            · exact ⟨Or.inl rfl, by rw [hv]; rfl⟩
            · exact ⟨Or.inr hm, hs⟩
          · rintro ⟨rfl | hm, hs⟩
            · exact Or.inl rfl
            · exact Or.inr ⟨hm, hs⟩

/-! ### Claim theorems -/

/-- C1 (code bug): the step-cache round trip `set(uri, step, P); get(uri, step) == P`
holds on the key-value backend, but on the relational backend every
`PostgresCache.set` returns `False` without touching the table and every
`PostgresCache.get` returns `None`, because both pass two arguments to
`generate_cache_key`, which requires three (`env` has no default), and the
resulting `TypeError` is swallowed by the `except Exception` handlers.  The
round trip therefore yields `None`, not `P`, on the relational backend. -/
theorem claim_C1_step_cache_round_trip :
    (∀ (db : PgDb) (uri step : String) (payload : Payload),
        (PostgresCache.set db uri step payload).2 = false ∧
        (PostgresCache.set db uri step payload).1 = db ∧
        PostgresCache.get (PostgresCache.set db uri step payload).1 uri step = none) ∧
    (∀ (st : RedisStore) (env uri step now : String) (payload : Payload),
        RedisCache.get (RedisCache.set st env uri step payload now).1 env uri step =
          some payload) := by
  constructor
  · intro db uri step payload
    exact ⟨rfl, rfl, rfl⟩
  · intro st env uri step now payload
    simp [RedisCache.get, RedisCache.set, CacheInterface.create_cache_value,
      CacheInterface.extract_payload]

/-- C4 (code bug): batch lookup does not behave as claimed on either backend.  On
the relational backend `get_many` always returns the empty dict, whatever the
table holds, because the key-list comprehension raises `TypeError` (missing `env`
argument) and the handler returns `{}`; the key-value backend has no `get_many`
method at all, so the attribute access raises `AttributeError`. -/
theorem claim_C4_batch_lookup_get_many :
    (∀ (db : PgDb) (uris : List String) (step : String),
        PostgresCache.get_many db uris step = []) ∧
    RedisCache.getManyCall = Except.error PyError.attributeError := by
  constructor
  · intro db uris step
    cases uris with
    | nil => rfl
    | cons u rest => rfl
  · rfl

/-- C7: if `DataCache.put` fails at either the payload write or the metadata write,
the handler removes both the `.gz` file and the `.meta.json` sidecar (whatever
state either file was in) before the error is propagated to the caller. -/
theorem claim_C7_raw_cache_write_atomicity (slot : CacheSlot) (now : Rat)
    (source_name config_hash : String) (data : List Nat) (f : PutFailure) :
    (DataCache.put slot now source_name config_hash data (some f)).1.gz = none ∧
    (DataCache.put slot now source_name config_hash data (some f)).1.meta = none ∧
    (DataCache.put slot now source_name config_hash data (some f)).2 = some f := by
  cases f <;> exact ⟨rfl, rfl, rfl⟩

/-- C9: every payload built by `Enricher.cache_error` carries `success = False`, an
error object with both `type` and `message`, and a dict under `data` (empty when no
partial data is supplied); every payload built by `Enricher.cache_success` carries
`success = True` and a `data` dict; consequently the read `cached_data["data"]`
performed by `DBpediaEnricher.apply_cached_data` succeeds on both. -/
theorem claim_C9_failure_payload_shape (error_type message : String)
    (data : Option Payload) (d : Payload) :
    (Enricher.cacheErrorPayload error_type message data).lookup "success" =
        some (Json.bool false) ∧
    (Enricher.cacheErrorPayload error_type message data).lookup "error" =
        some (Json.obj [("type", Json.str error_type), ("message", Json.str message)]) ∧
    (Enricher.cacheErrorPayload error_type message data).lookup "data" =
        some (Json.obj (data.getD [])) ∧
    (Enricher.cacheSuccessPayload d).lookup "success" = some (Json.bool true) ∧
    (Enricher.cacheSuccessPayload d).lookup "data" = some (Json.obj d) ∧
    DBpediaEnricher.applyCachedDataRead (Enricher.cacheErrorPayload error_type message data) =
        Except.ok (Json.obj (data.getD [])) ∧
    DBpediaEnricher.applyCachedDataRead (Enricher.cacheSuccessPayload d) =
        Except.ok (Json.obj d) :=
  ⟨rfl, rfl, rfl, rfl, rfl, rfl, rfl⟩

/-- C10: a zero (falsy) TTL passed to the raw-source cache `get` is replaced by the
configured default TTL, so the call behaves exactly as a call without a TTL;
a caller cannot force immediate expiry by passing `ttl_hours = 0`. -/
theorem claim_C10_zero_ttl_fallback (slot : CacheSlot) (now default_ttl_hours : Rat)
    (ignore_expiry : Bool) :
    DataCache.get slot now (some 0) ignore_expiry default_ttl_hours =
      DataCache.get slot now none ignore_expiry default_ttl_hours := by
  simp [DataCache.get, DataCache.effectiveTtl]

/-- C6 counterexample: the clause "whenever the metadata sidecar is absent, get
returns miss" fails as stated: with `ignore_expiry = True` and the payload file
present, `DataCache.get` skips the expiry check (the only place the sidecar is
consulted) and returns the stored bytes. -/
theorem claim_C6_counterexample :
    ¬ (∀ (slot : CacheSlot) (now : Rat) (ttl_hours : Option Rat) (ignore_expiry : Bool)
        (default_ttl_hours : Rat), slot.meta = none →
          DataCache.get slot now ttl_hours ignore_expiry default_ttl_hours = none) := by
  intro h
  have hx := h { gz := some (GzFile.valid [1]), meta := none } 0 (some 1) true 24 rfl
  simp [DataCache.get, DataCache.is_expired, DataCache.effectiveTtl] at hx

/-- C6 (amended): after a successful `put` at time `t0`, `get` returns the stored
bytes when queried within the TTL, returns a miss when `now - created_at` exceeds
the TTL with `ignore_expiry = False`, and returns the stored bytes with
`ignore_expiry = True`; and whenever the metadata sidecar is absent and
`ignore_expiry` is `False`, `get` returns a miss. -/
theorem claim_C6_raw_cache_read (slot : CacheSlot) (t0 now default_ttl_hours h : Rat)
    (source_name config_hash : String) (B : List Nat) (hh : h ≠ 0) :
    (now - t0 ≤ h * 3600 →
      DataCache.get (DataCache.put slot t0 source_name config_hash B none).1 now (some h)
        false default_ttl_hours = some B) ∧
    (now - t0 > h * 3600 →
      DataCache.get (DataCache.put slot t0 source_name config_hash B none).1 now (some h)
        false default_ttl_hours = none) ∧
    (DataCache.get (DataCache.put slot t0 source_name config_hash B none).1 now (some h)
        true default_ttl_hours = some B) ∧
    (∀ slot2 : CacheSlot, slot2.meta = none →
      DataCache.get slot2 now (some h) false default_ttl_hours = none) := by
  refine ⟨?_, ?_, ?_, ?_⟩
  · intro hle
    simp [DataCache.put, DataCache.get, DataCache.is_expired, DataCache.effectiveTtl,
      hh, not_lt.mpr hle]
  · intro hgt
    simp [DataCache.put, DataCache.get, DataCache.is_expired, DataCache.effectiveTtl,
      hh, hgt]
  · simp [DataCache.put, DataCache.get]
  · intro slot2 hm
    simp [DataCache.get, DataCache.is_expired, hm]

/-- Witness for C6: a concrete put at time 0 with TTL one hour, read back after half
an hour (hit), after two hours (miss), after two hours ignoring expiry (hit), and a
read of a slot with payload but no sidecar under `ignore_expiry = False` (miss). -/
theorem claim_C6_witness :
    DataCache.get (DataCache.put ⟨none, none⟩ 0 "src" "cfg" [7] none).1 1800 (some 1)
        false 24 = some [7] ∧
    DataCache.get (DataCache.put ⟨none, none⟩ 0 "src" "cfg" [7] none).1 7200 (some 1)
        false 24 = none ∧
    DataCache.get (DataCache.put ⟨none, none⟩ 0 "src" "cfg" [7] none).1 7200 (some 1)
        true 24 = some [7] ∧
    DataCache.get ⟨some (GzFile.valid [7]), none⟩ 1800 (some 1) false 24 = none := by
  have h1 := claim_C6_raw_cache_read ⟨none, none⟩ 0 1800 24 1 "src" "cfg" [7] (by norm_num)
  have h2 := claim_C6_raw_cache_read ⟨none, none⟩ 0 7200 24 1 "src" "cfg" [7] (by norm_num)
  exact ⟨h1.1 (by norm_num), h2.2.1 (by norm_num), h2.2.2.1,
    h1.2.2.2 ⟨some (GzFile.valid [7]), none⟩ rfl⟩

/-- Membership after the per-step intersection fold of the completeness resolver. -/
theorem mem_resolver_foldl (st : StepCacheState) (u : String) :
    ∀ (steps : List String) (acc : List String),
      u ∈ steps.foldl
          (fun acc step =>
            acc.filter (fun v => (dictKeys (getManySpec st acc step)).elem v)) acc ↔
        u ∈ acc ∧ ∀ s ∈ steps, (st u s).isSome := by
  intro steps
  induction steps with
  | nil => intro acc; simp
  | cons s rest ih =>
      intro acc
      rw [List.foldl_cons, ih]
      constructor
      · rintro ⟨hf, hrest⟩
        rw [List.mem_filter] at hf
        obtain ⟨hacc, hc⟩ := hf
        have hm : u ∈ dictKeys (getManySpec st acc s) := List.elem_iff.mp hc
        rw [mem_dictKeys_getManySpec] at hm
        refine ⟨hacc, fun t ht => ?_⟩
        rcases List.mem_cons.mp ht with rfl | h2
        · exact hm.2
        · exact hrest t h2
      · rintro ⟨hacc, hall⟩
        refine ⟨List.mem_filter.mpr ⟨hacc, ?_⟩,
          fun t ht => hall t (List.mem_cons_of_mem _ ht)⟩
        exact List.elem_iff.mpr
          (mem_dictKeys_getManySpec.mpr ⟨hacc, hall s (List.mem_cons_self s rest)⟩)

/-- C2: the completeness resolver returns exactly the candidate URIs that hold a
cache entry for the reserved `pipeline.processed_items` marker and an entry for
every enabled step; on the concrete scenario with steps `A`, `B`, the marker
present for `x, y`, step `A` present for `x, y, z` and step `B` present for `x`
only, the result on `[x, y, z]` is `[x]`; and the ingestion output keeps exactly
the items whose URI is falsy or outside the resolver result. -/
theorem claim_C2_completeness_resolver (st : StepCacheState) (enabledSteps : List String)
    (itemUris : List String) (u : String) :
    (u ∈ Pipeline.getFullyProcessedUris st enabledSteps itemUris ↔
      u ∈ itemUris ∧ (st u "pipeline.processed_items").isSome ∧
        ∀ s ∈ enabledSteps, (st u s).isSome) ∧
    (u ∈ Pipeline.filterNewItems (Pipeline.getFullyProcessedUris st enabledSteps itemUris)
        itemUris ↔
      u ∈ itemUris ∧
        (u = "" ∨ u ∉ Pipeline.getFullyProcessedUris st enabledSteps itemUris)) ∧
    Pipeline.getFullyProcessedUris
      (fun v s =>
        if (s == "pipeline.processed_items" && (v == "x" || v == "y"))
            || (s == "A" && (v == "x" || v == "y" || v == "z"))
            || (s == "B" && v == "x")
        then some [] else none)
      ["A", "B"] ["x", "y", "z"] = ["x"] := by
  refine ⟨?_, ?_, by decide⟩
  · unfold Pipeline.getFullyProcessedUris
    by_cases hE : (dictKeys (getManySpec st itemUris "pipeline.processed_items")).isEmpty
    · rw [if_pos hE]
      simp only [List.not_mem_nil, false_iff]
      rintro ⟨h1, h2, _⟩
      have hmem : u ∈ dictKeys (getManySpec st itemUris "pipeline.processed_items") :=
        mem_dictKeys_getManySpec.mpr ⟨h1, h2⟩
      rw [List.isEmpty_iff] at hE
      rw [hE] at hmem
      cases hmem
    · rw [if_neg hE, mem_resolver_foldl, mem_dictKeys_getManySpec]
      exact and_assoc
  · unfold Pipeline.filterNewItems
    rw [List.mem_filter]
    have hb : ((u == "") ||
        !((Pipeline.getFullyProcessedUris st enabledSteps itemUris).elem u)) = true ↔
        (u = "" ∨ u ∉ Pipeline.getFullyProcessedUris st enabledSteps itemUris) := by
      rw [Bool.or_eq_true, beq_iff_eq, Bool.not_eq_true']
      constructor
      · rintro (h | h)
        · exact Or.inl h
        · refine Or.inr (fun hm => ?_)
          rw [List.elem_iff.mpr hm] at h
          cases h
      · rintro (h | h)
        · exact Or.inl h
        · refine Or.inr ?_
          cases hc : (Pipeline.getFullyProcessedUris st enabledSteps itemUris).elem u
          · rfl
          · exact absurd (List.elem_iff.mp hc) h
    rw [hb]

/-- Value of the enricher batch result at a position holding a cached item: the
`apply_cached_data` outcome on the stored payload, whatever `_process_item` is. -/
theorem enrich_get?_cached {Item : Type} (uriOf : Item → String)
    (applyCachedData : Item → Payload → Except PyError Item)
    (processItem : Item → Except PyError Item)
    (st : StepCacheState) (step : String) (items : List Item)
    (i : Nat) (it : Item) (p : Payload)
    (hit : items.get? i = some it) (huri : uriOf it ≠ "")
    (hcache : st (uriOf it) step = some p) :
    (Enricher.enrich uriOf applyCachedData processItem st step items).get? i =
      some (pyTry (applyCachedData it p) it) := by
  have hmem : it ∈ items := List.get?_mem hit
  have hfil : it ∈ items.filter (fun x => uriOf x != "") :=
    List.mem_filter.mpr ⟨hmem, by simpa [bne_iff_ne] using huri⟩
  have huris : uriOf it ∈ (items.filter (fun x => uriOf x != "")).map uriOf :=
    List.mem_map_of_mem uriOf hfil
  have hne : ((items.filter (fun x => uriOf x != "")).map uriOf).isEmpty = false := by
    cases hl : (items.filter (fun x => uriOf x != "")).map uriOf with
    | nil => exact absurd (hl ▸ huris) (List.not_mem_nil _)
    | cons a as => rfl
  have hbne : (uriOf it != "") = true := by simpa [bne_iff_ne] using huri
  unfold Enricher.enrich
  rw [List.get?_map, hit, Option.map_some']
  unfold Enricher.enrichStep Enricher.enrichCached
  rw [hne]
  simp only [Bool.false_eq_true, if_false, hbne, if_true,
    lookup_getManySpec st step huris, hcache]

/-- C3: in the batch enrichment protocol, an item whose URI holds a cache entry for
the step receives `apply_cached_data` on the stored payload, and the result does
not depend on the `_process_item` computation function at all — in particular a
computation function that raises if called is never triggered for that item. -/
theorem claim_C3_cache_hit_short_circuit {Item : Type} (uriOf : Item → String)
    (applyCachedData : Item → Payload → Except PyError Item)
    (processItem raisingProcessItem : Item → Except PyError Item)
    (st : StepCacheState) (step : String) (items : List Item)
    (i : Nat) (it : Item) (p : Payload)
    (hit : items.get? i = some it) (huri : uriOf it ≠ "")
    (hcache : st (uriOf it) step = some p) :
    (Enricher.enrich uriOf applyCachedData processItem st step items).get? i =
        some (pyTry (applyCachedData it p) it) ∧
    (Enricher.enrich uriOf applyCachedData raisingProcessItem st step items).get? i =
        (Enricher.enrich uriOf applyCachedData processItem st step items).get? i := by
  refine ⟨enrich_get?_cached uriOf applyCachedData processItem st step items i it p
      hit huri hcache, ?_⟩
  rw [enrich_get?_cached uriOf applyCachedData processItem st step items i it p
      hit huri hcache,
    enrich_get?_cached uriOf applyCachedData raisingProcessItem st step items i it p
      hit huri hcache]

/-- Witness for C3: one item whose URI is pre-cached, enriched with a computation
function that raises if called; the result is the cached application, so the
raising function was never invoked. -/
theorem claim_C3_witness :
    (Enricher.enrich (fun _ : Nat => "u") (fun n _ => Except.ok (n + 1))
        (fun _ => Except.error PyError.raised)
        (fun v s => if v == "u" && s == "enricher.test" then some [] else none)
        "enricher.test" [0]).get? 0 = some 1 := by
  have h := claim_C3_cache_hit_short_circuit (fun _ : Nat => "u")
      (fun n _ => Except.ok (n + 1)) (fun n => Except.ok (n + 5))
      (fun _ => Except.error PyError.raised)
      (fun v s => if v == "u" && s == "enricher.test" then some [] else none)
      "enricher.test" [0] 0 0 [] rfl (by decide) rfl
  exact h.2.trans h.1

/-- C8 (code bug): the base batch protocol is index-aligned — the result has the
input's length and the entry at every position is the per-item outcome for the
input item at that position, the original item itself when its processing raised —
but `URLTextEnricher.enrich`, the batch entry point `Pipeline._run_enrichment`
invokes, overrides the base method with a single-item signature and raises
`AttributeError` whenever it is handed a list. -/
theorem claim_C8_batch_result_alignment {Item Jtem : Type} (uriOf : Item → String)
    (applyCachedData : Item → Payload → Except PyError Item)
    (processItem : Item → Except PyError Item)
    (st : StepCacheState) (step : String) (items : List Item)
    (single : Jtem → Jtem) :
    (Enricher.enrich uriOf applyCachedData processItem st step items).length =
        items.length ∧
    (∀ i : Nat,
      (Enricher.enrich uriOf applyCachedData processItem st step items).get? i =
        (items.get? i).map
          (Enricher.enrichStep uriOf applyCachedData processItem
            (Enricher.enrichCached uriOf st step items))) ∧
    (∀ (cached : List (String × Payload)) (it : Item),
        cached.lookup (uriOf it) = none →
        processItem it = Except.error PyError.raised →
        Enricher.enrichStep uriOf applyCachedData processItem cached it = it) ∧
    (∀ l : List Jtem,
        URLTextEnricher.enrichCall single (PyArg.pylist l) =
          Except.error PyError.attributeError) := by
  refine ⟨by simp [Enricher.enrich], fun i => by simp [Enricher.enrich, List.get?_map],
    ?_, fun l => rfl⟩
  intro cached it hl hp
  unfold Enricher.enrichStep
  cases hb : (uriOf it != "") with
  | false => simp [hb, hp, pyTry]
  | true => simp [hb, hl, hp, pyTry]

/-- Witness for C8: a one-item batch whose processing raises comes back as the
original item, aligned; the list length is preserved. -/
theorem claim_C8_witness :
    (Enricher.enrich (fun _ : Nat => "u") (fun n _ => Except.ok n)
        (fun _ => Except.error PyError.raised) (fun _ _ => none) "s" [3]).length = 1 ∧
    Enricher.enrichStep (fun _ : Nat => "u") (fun n _ => Except.ok n)
        (fun _ => Except.error PyError.raised) [] 3 = 3 := by
  have h := claim_C8_batch_result_alignment (fun _ : Nat => "u") (fun n _ => Except.ok n)
      (fun _ => Except.error PyError.raised) (fun _ _ => none) "s" [3] (id : Nat → Nat)
  exact ⟨by simpa using h.1, h.2.2.1 [] 3 rfl rfl⟩

/-- C5: identifier generation is deterministic and content-addressed: the
claim-review URI is `claim-review/` followed by the lowercase-hex SHA-224 digest of
the UTF-8 bytes of the kind concatenated with the normalized identity fields in
their fixed order (normalized claim text, rating label, lowercased review-URL
authority+path, publish date, language, missing optional fields as empty strings);
the claim URI likewise for kind `claim`; and two claim reviews with identical
identity fields yield the identical URI, for every normalization function,
whatever their non-identity fields. -/
theorem claim_C5_content_addressed_identifier (normalize : String → String)
    (r r2 : CanonicalClaimReview) (c : CanonicalClaim)
    (hid : claimReviewIdentityFields normalize r =
      claimReviewIdentityFields normalize r2) :
    CanonicalClaimReview.uri normalize r = claimReviewUriSpec normalize r ∧
    CanonicalClaim.uri normalize c = claimUriSpec normalize c ∧
    CanonicalClaimReview.uri normalize r = CanonicalClaimReview.uri normalize r2 := by
  refine ⟨rfl, rfl, ?_⟩
  simp only [claimReviewIdentityFields, List.cons.injEq, and_true] at hid
  obtain ⟨h1, h2, h3, h4, h5⟩ := hid
  show claimReviewUriSpec normalize r = claimReviewUriSpec normalize r2
  unfold claimReviewUriSpec
  rw [h1, h2, h3, h4, h5]

/-- Witness for C5: two claim reviews sharing all identity fields but differing in
headline, original rating label, review text and source name receive the identical
identifier. -/
theorem claim_C5_witness :
    CanonicalClaimReview.uri id
        { claim := { text := "The Arctic is warming" },
          review_url := "https://Example.org/fact/check",
          date_published := some "2023-01-01", language := some "en",
          rating := some { label := "false" }, review_text := some "long review",
          source_name := some "alpha" } =
      CanonicalClaimReview.uri id
        { claim := { text := "The Arctic is warming", headline := some "head" },
          review_url := "https://Example.org/fact/check",
          date_published := some "2023-01-01", language := some "en",
          rating := some { label := "false", original_label := some "FALSE" },
          review_text := none, source_name := some "beta" } := by
  have h := claim_C5_content_addressed_identifier id
      { claim := { text := "The Arctic is warming" },
        review_url := "https://Example.org/fact/check",
        date_published := some "2023-01-01", language := some "en",
        rating := some { label := "false" }, review_text := some "long review",
        source_name := some "alpha" }
      { claim := { text := "The Arctic is warming", headline := some "head" },
        review_url := "https://Example.org/fact/check",
        date_published := some "2023-01-01", language := some "en",
        rating := some { label := "false", original_label := some "FALSE" },
        review_text := none, source_name := some "beta" }
      { text := "t" } (by decide)
  exact h.2.2
